import Mathlib

/-!
# Verification of the git-meta repository state model

Shallow embedding of `src/gitmeta.py` (class `Repo`: `is_dirty`, `remote_diff`,
`has_remote`, `stashed`, `statusline`; class `Meta`: `discover`,
`_write_repolist`, `iter`).  The external version-control engine (GitPython /
pygit2) is modelled by explicit state fields and primitive functions, following
the engine contract the program relies on; everything written in the repository
itself is translated line by line.
-/

namespace GitMeta

/-- Engine-level status of one file of the working tree, as reported by the
external version-control engine: changed tracked file (index or working tree),
untracked file, ignored file, or clean. -/
inductive FStatus where
  | clean
  | trackedChanged
  | untracked
  | ignored
deriving DecidableEq

/-- A local branch as the engine presents it: its name, the commit id of its
tip, and the upstream (tracking) branch name recorded in the repository
configuration, when one was ever set up. -/
structure Branch where
  name : String
  tip : Nat
  upstreamName : Option String
deriving DecidableEq

/-- The state of one on-disk repository, as exposed by the external engine to
`gitmeta.Repo`.  `graph` maps a commit id to the list of its parent ids;
`remoteRefs` is the set of live remote references (name, tip commit);
`mergeBaseFn` is the engine's merge-base primitive; `stashOutput` is the text
returned by the `stash list` engine command. -/
structure RepoFacts where
  bare : Bool
  path : String
  workingDir : String
  files : List (String × FStatus)
  branches : List Branch
  remoteRefs : List (String × Nat)
  graph : List (Nat × List Nat)
  mergeBaseFn : Nat → Nat → Nat
  stashOutput : String

/-- Engine primitive `git.Repo.is_dirty()` (with its default arguments): true
iff some tracked file differs from the index or HEAD.  Untracked and ignored
files are not taken into account by this default. -/
def engineIsDirty (r : RepoFacts) : Bool :=
  r.files.any (fun f => f.2 == FStatus.trackedChanged)

/-- Engine primitive `git.Repo.untracked_files`: the untracked files of the
working tree.  The engine already excludes ignored files from this list. -/
def untrackedFiles (r : RepoFacts) : List String :=
  (r.files.filter (fun f => f.2 == FStatus.untracked)).map Prod.fst

/-- `Repo.is_dirty` (gitmeta.py:190-192):
`return super().is_dirty() or len(self.untracked_files) != 0`. -/
def is_dirty (r : RepoFacts) : Bool :=
  engineIsDirty r || (untrackedFiles r).length != 0

/-- Engine primitive `branch.tracking_branch()` / `branch.upstream`: the
recorded upstream name is resolved among the live remote references; a branch
whose recorded upstream no longer exists resolves to `none` (the engine returns
`None` for it, per the pygit2 `Branch.upstream` contract the program uses). -/
def trackingBranch (r : RepoFacts) (b : Branch) : Option Nat :=
  match b.upstreamName with
  | none => none
  | some nm => r.remoteRefs.lookup nm

/-- `Repo.has_remote` (gitmeta.py:239-249): true iff some local branch carries
a recorded tracking-branch reference. -/
def has_remote (r : RepoFacts) : Bool :=
  r.branches.any (fun b => b.upstreamName.isSome)

/-- `Repo.stashed` (gitmeta.py:251-257):
`return len(self.git.stash("list")) > 0`. -/
def stashed (r : RepoFacts) : Bool :=
  r.stashOutput.length > 0

/-- Parents of a commit in the engine's commit graph. -/
def parentsOf (g : List (Nat × List Nat)) (c : Nat) : List Nat :=
  (g.lookup c).getD []

/-- Add to `acc` the elements of `xs` not already present. -/
def addNew (acc : List Nat) (xs : List Nat) : List Nat :=
  xs.foldl (fun a p => if p ∈ a then a else a ++ [p]) acc

/-- One step of the reachability closure: extend the set by all parents. -/
def reachStep (g : List (Nat × List Nat)) (seen : List Nat) : List Nat :=
  seen.foldl (fun acc c => addNew acc (parentsOf g c)) seen

/-- Iterate the closure step a fixed number of times. -/
def reachIter (g : List (Nat × List Nat)) : Nat → List Nat → List Nat
  | 0, seen => seen
  | n + 1, seen => reachIter g n (reachStep g seen)

/-- Enough closure steps to saturate any reachable set of `g`. -/
def graphFuel (g : List (Nat × List Nat)) : Nat :=
  1 + g.foldl (fun n e => n + e.2.length) 0

/-- Commits reachable from `c` (including `c`), by graph walk. -/
def reachableFrom (g : List (Nat × List Nat)) (c : Nat) : List Nat :=
  reachIter g (graphFuel g) [c]

/-- Engine primitive `iter_commits("base..tip")` count: the number of commits
reachable from `tip` but not from `base`. -/
def countRange (g : List (Nat × List Nat)) (base tip : Nat) : Nat :=
  ((reachableFrom g tip).filter (fun c => !((reachableFrom g base).contains c))).length

/-- The divergence encoding of `Repo.remote_diff` (gitmeta.py:226-233):
both sides ahead gives `"{count_desc}-{count_asc}"`, local-only gives
`str(count_desc)`, remote-only gives `str(-count_asc)`. -/
def encodeDiff (countDesc countAsc : Nat) : String :=
  if countAsc != 0 && countDesc != 0 then
    toString countDesc ++ "-" ++ toString countAsc
  else if countDesc != 0 then
    toString countDesc
  else
    toString (-(countAsc : Int))

/-- Loop body of `Repo.remote_diff` (gitmeta.py:194-237) over the branch list.
The Python dict is represented as an association list in iteration order
(branch names are unique within a repository, so no key is ever written
twice). -/
def remote_diffAux (r : RepoFacts) : List Branch → List (String × String)
  | [] => []
  | b :: rest =>
    match trackingBranch r b with
    | none => remote_diffAux r rest
    | some remoteTip =>
      let base := r.mergeBaseFn b.tip remoteTip
      let countDesc := countRange r.graph base b.tip
      let countAsc := countRange r.graph base remoteTip
      if countAsc != 0 || countDesc != 0 then
        (b.name, encodeDiff countDesc countAsc) :: remote_diffAux r rest
      else
        remote_diffAux r rest

/-- `Repo.remote_diff` (gitmeta.py:194-237). -/
def remote_diff (r : RepoFacts) : List (String × String) :=
  remote_diffAux r r.branches

/-- The commit count on the local side since the merge base, as the spec
describes it for branch `b` with resolved remote tip `rt`. -/
def countLocal (r : RepoFacts) (b : Branch) (rt : Nat) : Nat :=
  countRange r.graph (r.mergeBaseFn b.tip rt) b.tip

/-- The commit count on the remote side since the merge base. -/
def countRemote (r : RepoFacts) (b : Branch) (rt : Nat) : Nat :=
  countRange r.graph (r.mergeBaseFn b.tip rt) rt

/-- The divergence encoding actually produced by the program, spelled out the
way the (amended) specification states it: both sides ahead gives
`"<local>-<remote>"`, local-only gives `"<local>"`, remote-only gives
`"-<remote>"`. -/
def specEncode (cd ca : Nat) : String :=
  if cd ≠ 0 ∧ ca ≠ 0 then toString cd ++ "-" ++ toString ca
  else if cd ≠ 0 then toString cd
  else "-" ++ toString ca

/-- The clone of the spec's two-clone scenario: both clones share commit `0`;
the local branch `master` is at its own commit `1`, its live upstream
`origin/master` is at the other clone's commit `2`; the merge base of `1` and
`2` is `0`. -/
def cloneRepo : RepoFacts :=
  { bare := false
    path := "/clone"
    workingDir := "/clone"
    files := []
    branches := [⟨"master", 1, some "origin/master"⟩]
    remoteRefs := [("origin/master", 2)]
    graph := [(0, []), (1, [0]), (2, [0])]
    mergeBaseFn := fun _ _ => 0
    stashOutput := "" }

/-- A repository whose only branch records an upstream that no longer exists
among the live remote references (stale tracking metadata). -/
def staleRepo : RepoFacts :=
  { bare := false
    path := "/stale"
    workingDir := "/stale"
    files := []
    branches := [⟨"gone", 5, some "origin/gone"⟩]
    remoteRefs := []
    graph := [(5, [])]
    mergeBaseFn := fun _ _ => 0
    stashOutput := "" }

/-- A repository whose only change is a single untracked file. -/
def exUntracked : RepoFacts :=
  { bare := false
    path := "/ex"
    workingDir := "/ex"
    files := [("scratch.txt", FStatus.untracked)]
    branches := []
    remoteRefs := []
    graph := []
    mergeBaseFn := fun _ _ => 0
    stashOutput := "" }

/-- The same repository after `scratch.txt` is covered by `.gitignore`: the
engine now reports the file as ignored. -/
def exIgnored : RepoFacts :=
  { exUntracked with files := [("scratch.txt", FStatus.ignored)] }

/-- Outcome of one `Meta.iter` run: the yielded repository paths, the paths
diagnosed as invalid, the successive registry lists persisted through
`_write_repolist` (in chronological order), and the attempted paths in
order. -/
structure IterOut where
  yields : List String
  diags : List String
  writes : List (List String)
  attempts : List String
deriving DecidableEq

/-- The file content produced by `Meta._write_repolist` (gitmeta.py:402-412):
`repofile.write("\n".join(repolist))` — newline-separated, no trailing
newline. -/
def joinLines (l : List String) : String := String.intercalate "\n" l

/-- The status filter of `Meta.iter` (gitmeta.py:432-442), one disjunct per
line of the Python condition; `none` stands for Python `None`. -/
def passesFilter (filt : Option String) (r : RepoFacts) : Bool :=
  filt == none || filt == some "all"
    || (filt == some "OK" && !(is_dirty r))
    || (filt == some "KO" && is_dirty r)
    || (filt == some "remote" && !(remote_diff r).isEmpty)
    || (filt == some "no-remote" && !(has_remote r))
    || (filt == some "NOK" &&
        (is_dirty r || !(remote_diff r).isEmpty || stashed r))

/-- Loop of `Meta.iter` (gitmeta.py:414-443) over the registry paths.  `mem`
is `self.repolist`, which the loop reads but never rebinds: on an invalid path
with `clean` set, the code copies it (`repolist = self.repolist[:]`), removes
the path from the copy (`repolist.remove(path)`, first occurrence) and
persists the copy.  `openRepo` is the engine's `Repo(path)` constructor,
`none` standing for a raised `git.exc.GitError`. -/
def iterAux (openRepo : String → Option RepoFacts) (clean : Bool)
    (filt : Option String) (mem : List String) : List String → IterOut
  | [] => ⟨[], [], [], []⟩
  | p :: rest =>
    let out := iterAux openRepo clean filt mem rest
    match openRepo p with
    | none =>
      ⟨out.yields, p :: out.diags,
        (if clean then [mem.erase p] else []) ++ out.writes, p :: out.attempts⟩
    | some r =>
      ⟨(if passesFilter filt r then [p] else []) ++ out.yields, out.diags,
        out.writes, p :: out.attempts⟩

/-- The scanner state: the in-memory `self.repolist` and the persisted
registry file content. -/
structure ScanState where
  mem : List String
  fileContent : String
deriving DecidableEq

/-- A full run of `Meta.iter`: the loop outcome together with the state after
the run.  The in-memory list is only read; the file holds the last write, when
there is one. -/
def iterRun (openRepo : String → Option RepoFacts) (clean : Bool)
    (filt : Option String) (st : ScanState) : IterOut × ScanState :=
  let out := iterAux openRepo clean filt st.mem st.mem
  (out,
    { mem := st.mem
      fileContent :=
        match out.writes.getLast? with
        | some w => joinLines w
        | none => st.fileContent })

/-- A valid repository with empty state, used as the engine's answer for the
valid registry entries of the scanner scenarios. -/
def validRepo : RepoFacts :=
  { bare := false
    path := "/v"
    workingDir := "/v"
    files := []
    branches := []
    remoteRefs := []
    graph := []
    mergeBaseFn := fun _ _ => 0
    stashOutput := "" }

/-- Engine for the two-invalid-paths scenario: only `/v` opens. -/
def engTwoBad : String → Option RepoFacts :=
  fun p => if p == "/v" then some validRepo else none

/-- Engine for the spec's one-valid-one-deleted scenario: only `/v` opens. -/
def engOneBad : String → Option RepoFacts :=
  fun p => if p == "/v" then some validRepo else none

/-- Starting scanner state for the one-valid-one-deleted scenario. -/
def oneBadState : ScanState := ⟨["/v", "/gone"], "old"⟩

/-- Result of a discovery walk: the recorded repository paths and the paths at
which a repository open (`Repo(root)`) was attempted, both in walk order. -/
structure WalkOut where
  records : List String
  attempts : List String
deriving DecidableEq

/-- Concatenation of walk results, in walk order. -/
def wAppend (a b : WalkOut) : WalkOut :=
  ⟨a.records ++ b.records, a.attempts ++ b.attempts⟩

/-- `glob.has_magic`: the pattern contains a shell wildcard character. -/
def hasMagic (s : String) : Bool :=
  s.data.any (fun c => c == '*' || c == '?' || c == '[')

/-- Shell-style pattern match, the `fnmatch.fnmatch` stdlib primitive used on
the ignore list: `*` matches any character sequence, `?` any single character,
any other character matches itself (character classes are not modelled).
Structural fuel: every recursive call shrinks `pattern length + text length`,
so that sum plus one is always enough. -/
def fnmatchGo : Nat → List Char → List Char → Bool
  | 0, _, _ => false
  | _ + 1, [], [] => true
  | f + 1, '*' :: ps, [] => fnmatchGo f ps []
  | f + 1, '*' :: ps, c :: s => fnmatchGo f ps (c :: s) || fnmatchGo f ('*' :: ps) s
  | f + 1, '?' :: ps, _ :: s => fnmatchGo f ps s
  | f + 1, p :: ps, c :: s => p == c && fnmatchGo f ps s
  | _ + 1, _, _ => false

/-- `fnmatch.fnmatch(s, pat)`. -/
def fnmatch (s pat : String) : Bool :=
  fnmatchGo (pat.length + s.length + 1) pat.data s.data

mutual
/-- The scan tree walked by `os.walk`: directory name, plain files directly
inside it, and subdirectories (as a forest, mutually inductive with the
tree). -/
inductive DirTree where
  | node (dirname : String) (files : List String) (children : DirForest)
/-- A list of sibling subtrees. -/
inductive DirForest where
  | nil
  | cons (t : DirTree) (ts : DirForest)
end

/-- The directory's own name. -/
def DirTree.name : DirTree → String
  | .node n _ _ => n

/-- The names of the subdirectories, the `dirs` list `os.walk` hands out. -/
def childNames : DirForest → List String
  | .nil => []
  | .cons t ts => t.name :: childNames ts

mutual
/-- The walk of `Meta.discover` (gitmeta.py:366-395), one directory at a time
in `os.walk` top-down order.  Mirrors the source exactly, including two of its
quirks:

* in the glob branch the source's `continue` binds to the inner pattern loop,
  so after `del dirs[:]` the walk still falls through to the repository
  check — `".git" in dirs` is then false (`dirs` was just emptied) but
  `"config" in files` can still trigger an open attempt at the glob-ignored
  directory itself;
* when the open raises, the `except` branch's `continue` does not clear
  `dirs`, so the walk descends into the failed directory's children.

`eng p` is the engine's `Repo(p)` constructor, returning `repo.working_dir`
(for a bare repository: the control directory) or `none` for a raised
`git.exc.GitError`. -/
def walkTree (ig : List String) (eng : String → Option String) :
    String → DirTree → WalkOut
  | p, .node _ files children =>
    if p ∈ ig then ⟨[], []⟩
    else if ig.any (fun e => hasMagic e && fnmatch p e) then
      (if files.contains "config" then
        match eng p with
        | some wd => ⟨[wd], [p]⟩
        | none => ⟨[], [p]⟩
      else ⟨[], []⟩)
    else if (childNames children).contains ".git"
        || files.contains "config" then
      match eng p with
      | some wd => ⟨[wd], [p]⟩
      | none => wAppend ⟨[], [p]⟩ (walkForest ig eng p children)
    else walkForest ig eng p children

/-- The walk over a list of sibling subdirectories, left to right. -/
def walkForest (ig : List String) (eng : String → Option String) :
    String → DirForest → WalkOut
  | _, .nil => ⟨[], []⟩
  | p, .cons t ts =>
    wAppend (walkTree ig eng (p ++ "/" ++ t.name) t) (walkForest ig eng p ts)
end

/-- Lexicographic string comparison by code point, the order Python's
`sorted` applies to `str` values. -/
def charListLe : List Char → List Char → Bool
  | [], _ => true
  | _ :: _, [] => false
  | a :: as, b :: bs => if a = b then charListLe as bs else decide (a < b)

/-- `a <= b` on strings, code-point lexicographic. -/
def strLe (a b : String) : Bool := charListLe a.data b.data

/-- Insert into a sorted list, keeping it sorted. -/
def insertSorted (x : String) : List String → List String
  | [] => [x]
  | y :: ys => if strLe x y then x :: y :: ys else y :: insertSorted x ys

/-- Insertion sort over strings in ascending code-point order. -/
def insertionSortStr : List String → List String
  | [] => []
  | x :: xs => insertSorted x (insertionSortStr xs)

/-- `sorted(set(repolist))` (gitmeta.py:400): deduplicate, then sort
ascending. -/
def sortDedup (l : List String) : List String := insertionSortStr l.dedup

/-- `Meta.discover` (gitmeta.py:349-400): walk the scan tree from `scanroot`,
persist the recorded paths through `_write_repolist(repolist)` (walk order,
newline-joined) and force the in-memory list to `sorted(set(repolist))`. -/
def discover (ig : List String) (eng : String → Option String)
    (scanroot : String) (t : DirTree) : ScanState × WalkOut :=
  let w := walkTree ig eng scanroot t
  (⟨sortDedup w.records, joinLines w.records⟩, w)

/-- Engine for the glob-ignored scenario: `/h/ba` opens as a repository. -/
def engGlob : String → Option String :=
  fun p => if p == "/h/ba" then some "/h/ba" else none

/-- Scan tree for the glob-ignored scenario: `/h` containing `/h/ba`, which
holds a `config` file. -/
def globTree : DirTree := .node "h" [] (.cons (.node "ba" ["config"] .nil) .nil)

/-- Engine for the nested-repository scenario: only `/r/a/b` opens. -/
def engNested : String → Option String :=
  fun p => if p == "/r/a/b" then some "/r/a/b" else none

/-- Scan tree for the nested-repository scenario: `/r/a` has a `config` file
but fails to open; its child `/r/a/b` has a `.git` subdirectory and opens. -/
def nestedTree : DirTree :=
  .node "r" []
    (.cons
      (.node "a" ["config"]
        (.cons (.node "b" [] (.cons (.node ".git" [] .nil) .nil)) .nil))
      .nil)

/-- Engine that opens every attempted path under its own name. -/
def engAll : String → Option String := fun p => some p

/-- Scan tree whose two repositories are met in non-sorted walk order. -/
def unsortedTree : DirTree :=
  .node "r" []
    (.cons (.node "b" ["config"] .nil) (.cons (.node "a" ["config"] .nil) .nil))

/-- The same two repositories, met in already-sorted walk order. -/
def sortedTree : DirTree :=
  .node "r" []
    (.cons (.node "a" ["config"] .nil) (.cons (.node "b" ["config"] .nil) .nil))

/-- Engine for the bare-repository scenario: the control directory
`/scan/bare.git` opens, and as the repository is bare the engine reports the
control directory itself as the recorded path. -/
def engBare : String → Option String :=
  fun p => if p == "/scan/bare.git" then some "/scan/bare.git" else none

/-- Scan helper of `TagStr.empty`: at an opening `<`, find the matching `>`
of the regex `(<.*?>)` — the first `>` after it, not crossing a newline (`.`
does not match a newline) — and return the remainder, or `none` when this `<`
starts no tag. -/
def dropTag : List Char → Option (List Char)
  | [] => none
  | c :: rest =>
    if c = '\n' then none
    else if c = '>' then some rest
    else dropTag rest

/-- One left-to-right pass of `re.sub(r"(<.*?>)", "", text)`: every shortest
`<...>` group is removed, unclosed `<` stay.  Structural fuel; each step
consumes at least one character, so the text length is always enough. -/
def stripAux : Nat → List Char → List Char
  | 0, l => l
  | _ + 1, [] => []
  | f + 1, c :: rest =>
    if c = '<' then
      match dropTag rest with
      | some rest2 => stripAux f rest2
      | none => c :: stripAux f rest
    else c :: stripAux f rest

/-- `TagStr.empty` (gitmeta.py:169-181) on a character list. -/
def stripChars (l : List Char) : List Char := stripAux l.length l

/-- `TagStr.empty` (gitmeta.py:169-181): the string with every `<...>` tag
removed — the visible text whose length drives the filler computation. -/
def stripTags (s : String) : String := String.mk (stripChars s.data)

/-- Python `s[-m:]` for an `int` m: the trailing `m` characters when
`0 < m` (all of `s` when `m` exceeds its length), all of `s` when `m = 0`,
and `s[(-m):]` when `m` is negative. -/
def pyTail (s : String) (m : Int) : String :=
  if 0 < m then s.drop (s.length - m.toNat) else s.drop (-m).toNat

/-- The path abbreviation of `Repo.statusline` (gitmeta.py:278-281) with
`max_path_len = line_width - 30`: a working directory of length at most
`max_path_len + 3` is kept whole, a longer one becomes
`"..." + working_dir[-max_path_len:]`. -/
def formPath (lineWidth : Nat) (wd : String) : String :=
  if (wd.length : Int) ≤ ((lineWidth : Int) - 30) + 3 then wd
  else "..." ++ pyTail wd ((lineWidth : Int) - 30)

/-- The template `" {path} {filler}{more} {status}"` of `Repo.statusline`
(gitmeta.py:270). -/
def assembleLine (path filler more status : String) : String :=
  " " ++ path ++ " " ++ filler ++ more ++ " " ++ status

/-- The bare status token (gitmeta.py:275). -/
def bareStatus : String := "[<color=yellow>BARE</color>]"

/-- The clean status token (gitmeta.py:284). -/
def okStatus : String := "[ <color=green>OK</color> ]"

/-- The dirty status token (gitmeta.py:286). -/
def koStatus : String := "[ <color=red>KO</color> ]"

/-- The `path` field of the status line: the repository path for a bare
repository, the possibly abbreviated working directory otherwise. -/
def statuslinePath (r : RepoFacts) (lineWidth : Nat) : String :=
  if r.bare then r.path else formPath lineWidth r.workingDir

/-- The `more` field of the status line (gitmeta.py:288-298): one
`branch:divergence` token per out-of-sync branch, a stash token when
applicable, comma-joined in parentheses; empty for a bare repository. -/
def statuslineMore (r : RepoFacts) : String :=
  if r.bare then ""
  else
    let l := (remote_diff r).map (fun x => x.1 ++ ":" ++ x.2)
    let l := if stashed r then l ++ ["<color=yellow>stash</color>"] else l
    if l.length != 0 then "(" ++ String.intercalate "," l ++ ")" else ""

/-- The `status` field of the status line. -/
def statuslineStatus (r : RepoFacts) : String :=
  if r.bare then bareStatus
  else if !(is_dirty r) then okStatus else koStatus

/-- The filler of `Repo.statusline` (gitmeta.py:301):
`" " * (line_width - len(line.empty()))` — empty when the difference is
negative. -/
def fillerOf (lineWidth : Nat) (base : Nat) : String :=
  String.mk (List.replicate ((lineWidth : Int) - (base : Int)).toNat ' ')

/-- The tag-stripped length of the first-pass line (empty filler), the
quantity the source measures to size the filler. -/
def baseVisibleLen (r : RepoFacts) (lineWidth : Nat) : Nat :=
  (stripTags (assembleLine (statuslinePath r lineWidth) ""
    (statuslineMore r) (statuslineStatus r))).length

/-- `Repo.statusline` (gitmeta.py:259-304) up to its final `.shell()` call:
the source renders the template once with an empty filler, measures the
tag-stripped length, sizes the filler to reach `line_width`, and renders the
template again.  The trailing `.shell()` escape substitution is terminal
presentation (an external concern per the spec) and does not change the
tag-stripped visible text. -/
def statuslineTagged (r : RepoFacts) (lineWidth : Nat) : String :=
  assembleLine (statuslinePath r lineWidth)
    (fillerOf lineWidth (baseVisibleLen r lineWidth))
    (statuslineMore r) (statuslineStatus r)

/-- A 52-character working-directory path. -/
def wd52 : String := String.mk (List.replicate 52 'a')

/-- A clean repository with a short working-directory path. -/
def statusRepoShort : RepoFacts :=
  { bare := false
    path := "/w"
    workingDir := "/w/repo"
    files := []
    branches := []
    remoteRefs := []
    graph := []
    mergeBaseFn := fun _ _ => 0
    stashOutput := "" }

/-- The same repository with the 52-character working-directory path. -/
def statusRepoLong : RepoFacts := { statusRepoShort with workingDir := wd52 }

lemma toString_neg_coe (n : Nat) (h : n ≠ 0) :
    toString (-(n : Int)) = "-" ++ toString n := by
  match n, h with
  | Nat.succ m, _ => rfl

lemma encodeDiff_eq_specEncode (cd ca : Nat) (h : cd ≠ 0 ∨ ca ≠ 0) :
    encodeDiff cd ca = specEncode cd ca := by
  unfold encodeDiff specEncode
  by_cases hcd : cd = 0 <;> by_cases hca : ca = 0 <;>
    simp [hcd, hca, toString_neg_coe]
  · exact absurd h (by simp [hcd, hca])

lemma remote_diffAux_mem (r : RepoFacts) (n v : String) :
    ∀ l : List Branch,
      ((n, v) ∈ remote_diffAux r l ↔
        ∃ b, b ∈ l ∧ b.name = n ∧ ∃ rt, trackingBranch r b = some rt ∧
          (countLocal r b rt ≠ 0 ∨ countRemote r b rt ≠ 0) ∧
          v = specEncode (countLocal r b rt) (countRemote r b rt))
  | [] => by simp [remote_diffAux]
  | b :: rest => by
    have ih := remote_diffAux_mem r n v rest
    cases htb : trackingBranch r b with
    | none =>
      simp only [remote_diffAux, htb, ih, List.mem_cons]
      constructor
      · rintro ⟨b', hb', h⟩; exact ⟨b', Or.inr hb', h⟩
      · rintro ⟨b', hb' | hb', hn, rt, hrt, h⟩
        · subst hb'; rw [htb] at hrt; cases hrt
        · exact ⟨b', hb', hn, rt, hrt, h⟩
    | some rt =>
      have hcd : countRange r.graph (r.mergeBaseFn b.tip rt) b.tip = countLocal r b rt := rfl
      have hca : countRange r.graph (r.mergeBaseFn b.tip rt) rt = countRemote r b rt := rfl
      simp only [remote_diffAux, htb, hcd, hca]
      by_cases hz : countRemote r b rt ≠ 0 ∨ countLocal r b rt ≠ 0
      · have hz' : (countRemote r b rt != 0 || countLocal r b rt != 0) = true := by
          rcases hz with h | h <;> simp [h]
        rw [if_pos hz', encodeDiff_eq_specEncode _ _ (Or.symm hz)]
        simp only [List.mem_cons, ih, Prod.mk.injEq]
        constructor
        · rintro (⟨hn, hv⟩ | ⟨b', hb', h⟩)
          · exact ⟨b, Or.inl rfl, hn.symm, rt, htb, Or.symm hz, hv⟩
          · exact ⟨b', Or.inr hb', h⟩
        · rintro ⟨b', hb' | hb', hn, rt', hrt', hnz', hv'⟩
          · subst hb'; rw [htb] at hrt'; cases hrt'
            exact Or.inl ⟨hn.symm, hv'⟩
          · exact Or.inr ⟨b', hb', hn, rt', hrt', hnz', hv'⟩
      · push_neg at hz
        have hz' : (countRemote r b rt != 0 || countLocal r b rt != 0) = false := by
          simp [hz.1, hz.2]
        rw [if_neg (by simp [hz'])]
        rw [ih]
        constructor
        · rintro ⟨b', hb', h⟩; exact ⟨b', List.mem_cons_of_mem _ hb', h⟩
        · rintro ⟨b', hb', hn, rt', hrt', hnz', hv'⟩
          rcases List.mem_cons.mp hb' with hb'' | hb''
          · subst hb''; rw [htb] at hrt'; cases hrt'
            exact absurd hnz' (by simp [hz.1, hz.2])
          · exact ⟨b', hb'', hn, rt', hrt', hnz', hv'⟩

lemma remote_diffAux_skip (r : RepoFacts) (b : Branch) (l₂ : List Branch)
    (htb : trackingBranch r b = none) :
    ∀ l₁ : List Branch,
      remote_diffAux r (l₁ ++ b :: l₂) = remote_diffAux r (l₁ ++ l₂)
  | [] => by simp [remote_diffAux, htb]
  | a :: l => by
    have ih := remote_diffAux_skip r b l₂ htb l
    simp only [List.cons_append, remote_diffAux]
    cases h : trackingBranch r a
    · exact ih
    · simp only [List.append_eq, ih]

lemma is_dirty_eq_true_iff (r : RepoFacts) :
    is_dirty r = true ↔
      ∃ f ∈ r.files, f.2 = FStatus.trackedChanged ∨ f.2 = FStatus.untracked := by
  simp only [is_dirty, engineIsDirty, untrackedFiles, Bool.or_eq_true,
    List.any_eq_true, beq_iff_eq, bne_iff_ne, ne_eq, List.length_map,
    List.length_eq_zero, List.filter_eq_nil_iff, not_forall]
  constructor
  · rintro (⟨f, hf, h⟩ | ⟨f, hf, h⟩)
    · exact ⟨f, hf, Or.inl h⟩
    · exact ⟨f, hf, Or.inr (by simpa using h)⟩
  · rintro ⟨f, hf, h | h⟩
    · exact Or.inl ⟨f, hf, h⟩
    · exact Or.inr ⟨f, hf, by simpa using h⟩

/-- C1 (counterexample): on the spec's own two-clone scenario the divergence
value produced by `remote_diff` is `"1-1"`, not the `"+1-1"` the claim's
signed-prefix encoding demands; no entry carries a `+` prefix. -/
theorem remote_diff_plus_sign_cex :
    remote_diff cloneRepo = [("master", "1-1")] ∧
      ("master", "+1-1") ∉ remote_diff cloneRepo := by
  decide

/-- C1 (amended): `remote_diff` maps exactly the local branches whose recorded
tracking branch resolves to a live remote reference and whose divergence is
nonzero (in-sync branches omitted), with the encoding: both sides ahead gives
`"<local>-<remote>"`, local-only gives `"<local>"`, remote-only gives
`"-<remote>"` (no `+` prefix); on the two-clone scenario the tracking clone
reports `"1-1"`. -/
theorem remote_diff_encoding :
    (∀ (r : RepoFacts) (n v : String),
      (n, v) ∈ remote_diff r ↔
        ∃ b, b ∈ r.branches ∧ b.name = n ∧
          ∃ rt, trackingBranch r b = some rt ∧
            (countLocal r b rt ≠ 0 ∨ countRemote r b rt ≠ 0) ∧
            v = specEncode (countLocal r b rt) (countRemote r b rt)) ∧
    remote_diff cloneRepo = [("master", "1-1")] :=
  ⟨fun r n v => remote_diffAux_mem r n v r.branches, by decide⟩

/-- C2: a branch whose recorded upstream no longer resolves among the live
remote references is omitted from the `remote_diff` mapping: the result is the
same as for the branch list without that branch (no crash — the embedding is a
total function — and no bogus entry). -/
theorem remote_diff_stale_omitted (r : RepoFacts) (l₁ l₂ : List Branch)
    (b : Branch) (nm : String) (hsplit : r.branches = l₁ ++ b :: l₂)
    (hrec : b.upstreamName = some nm)
    (hdead : r.remoteRefs.lookup nm = none) :
    remote_diff r = remote_diffAux r (l₁ ++ l₂) := by
  have htb : trackingBranch r b = none := by
    simp [trackingBranch, hrec, hdead]
  rw [remote_diff, hsplit]
  exact remote_diffAux_skip r b l₂ htb l₁

/-- C2 witness: on `staleRepo`, whose single branch records the dead upstream
`origin/gone`, `remote_diff` returns the empty mapping. -/
theorem remote_diff_stale_omitted_witness :
    staleRepo.branches =
        [] ++ (⟨"gone", 5, some "origin/gone"⟩ : Branch) :: [] ∧
      remote_diff staleRepo = [] := by
  refine ⟨rfl, ?_⟩
  rw [remote_diff_stale_omitted staleRepo [] []
    ⟨"gone", 5, some "origin/gone"⟩ "origin/gone" rfl rfl rfl]
  rfl

/-- C3: `is_dirty` is true iff some tracked file differs from the index/HEAD
or some untracked file exists; ignored files never contribute.  In particular
a repository whose only change is one untracked file is dirty, and once the
engine reports that file as ignored the repository is clean. -/
theorem is_dirty_spec :
    (∀ r : RepoFacts, is_dirty r = true ↔
      ∃ f ∈ r.files, f.2 = FStatus.trackedChanged ∨ f.2 = FStatus.untracked) ∧
    is_dirty exUntracked = true ∧ is_dirty exIgnored = false :=
  ⟨is_dirty_eq_true_iff, by decide, by decide⟩

lemma iterAux_attempts (eng : String → Option RepoFacts) (clean : Bool)
    (filt : Option String) (mem : List String) :
    ∀ l : List String, (iterAux eng clean filt mem l).attempts = l
  | [] => rfl
  | p :: rest => by
    have ih := iterAux_attempts eng clean filt mem rest
    simp only [iterAux]
    cases eng p <;> simpa using ih

lemma iterAux_diags (eng : String → Option RepoFacts) (clean : Bool)
    (filt : Option String) (mem : List String) :
    ∀ l : List String,
      (iterAux eng clean filt mem l).diags =
        l.filter (fun p => (eng p).isNone)
  | [] => rfl
  | p :: rest => by
    have ih := iterAux_diags eng clean filt mem rest
    simp only [iterAux, List.filter_cons]
    cases h : eng p <;> simp [h, ih]

lemma iterAux_yields (eng : String → Option RepoFacts) (clean : Bool)
    (filt : Option String) (mem : List String) :
    ∀ l : List String,
      (iterAux eng clean filt mem l).yields =
        l.filter (fun p => ((eng p).map (passesFilter filt)).getD false)
  | [] => rfl
  | p :: rest => by
    have ih := iterAux_yields eng clean filt mem rest
    simp only [iterAux, List.filter_cons]
    cases h : eng p with
    | none => simp [h, ih]
    | some r =>
      by_cases hp : passesFilter filt r <;> simp [h, hp, ih]

lemma iterAux_writes (eng : String → Option RepoFacts) (clean : Bool)
    (filt : Option String) (mem : List String) :
    ∀ l : List String,
      (iterAux eng clean filt mem l).writes =
        if clean then
          (l.filter (fun p => (eng p).isNone)).map (fun p => mem.erase p)
        else []
  | [] => by cases clean <;> rfl
  | p :: rest => by
    have ih := iterAux_writes eng clean filt mem rest
    simp only [iterAux, List.filter_cons]
    cases h : eng p with
    | none => cases clean <;> simp [h, ih]
    | some r => cases clean <;> simp [h, ih]

/-- C10: during one `Meta.iter` run the in-memory registry list is never
mutated — the state after the run holds the same list, every path of the
starting registry is attempted exactly once in its original order, and every
persisted write is the starting list minus a single invalid path (removal
operates on a fresh copy that is only written to disk). -/
theorem iter_no_mutation (eng : String → Option RepoFacts) (clean : Bool)
    (filt : Option String) (st : ScanState) :
    (iterRun eng clean filt st).2.mem = st.mem ∧
      (iterRun eng clean filt st).1.attempts = st.mem ∧
      ∀ w ∈ (iterRun eng clean filt st).1.writes,
        ∃ p ∈ st.mem, eng p = none ∧ w = st.mem.erase p := by
  refine ⟨rfl, iterAux_attempts eng clean filt st.mem st.mem, ?_⟩
  intro w hw
  have hw' : w ∈ (if clean then
      (st.mem.filter (fun p => (eng p).isNone)).map (fun p => st.mem.erase p)
    else []) := by
    rw [← iterAux_writes eng clean filt st.mem st.mem]
    exact hw
  rcases Bool.eq_false_or_eq_true clean with hc | hc <;> rw [hc] at hw'
  · simp at hw'
    obtain ⟨p, ⟨hp, hnone⟩, hpw⟩ := hw'
    exact ⟨p, hp, hnone, hpw.symm⟩
  · simp at hw'

/-- C10 witness: applying the invariant to the one-valid-one-deleted scenario:
the write produced by pruning `/gone` is the starting registry minus a single
invalid path. -/
theorem iter_no_mutation_witness :
    ∃ p ∈ oneBadState.mem, engOneBad p = none ∧
      ["/v"] = oneBadState.mem.erase p :=
  (iter_no_mutation engOneBad true none oneBadState).2.2 ["/v"] (by decide)

/-- C4 (counterexample): with pruning enabled and two invalid paths `/x`, `/y`
ahead of the valid `/v`, the registry file persisted at the end of the scan is
`"/x\n/v"` — each failure rewrites the starting list minus that one path, so
the earlier removal of `/x` is undone — not the claim's starting registry
minus every invalid path, which would be `"/v"`. -/
theorem iter_prune_two_invalid_cex :
    (iterRun engTwoBad true none ⟨["/x", "/y", "/v"], "old"⟩).2.fileContent =
        "/x" ++ "\n" ++ "/v" ∧
      "/x" ++ "\n" ++ "/v" ≠ joinLines ["/v"] ∧
      (iterRun engTwoBad true none ⟨["/x", "/y", "/v"], "old"⟩).1.diags =
        ["/x", "/y"] := by
  decide

/-- C4 (amended): with pruning enabled, each registry path that fails to open
produces exactly one diagnostic and immediately persists the starting registry
minus that single path; the file left at the end of the scan is the starting
registry minus the last invalid path (the in-memory list is never updated, so
removals do not accumulate) and is unchanged when every path opens; exactly
the successfully opened repositories that pass the filter are yielded.  With
at most one invalid path this coincides with the original claim. -/
theorem iter_prune_amended (eng : String → Option RepoFacts)
    (filt : Option String) (st : ScanState) :
    (iterRun eng true filt st).1.diags =
        st.mem.filter (fun p => (eng p).isNone) ∧
      (iterRun eng true filt st).1.writes =
        (st.mem.filter (fun p => (eng p).isNone)).map
          (fun p => st.mem.erase p) ∧
      (iterRun eng true filt st).1.yields =
        st.mem.filter (fun p => ((eng p).map (passesFilter filt)).getD false) ∧
      (∀ p, st.mem.filter (fun p => (eng p).isNone) = [p] →
        (iterRun eng true filt st).2.fileContent =
          joinLines (st.mem.erase p)) ∧
      (st.mem.filter (fun p => (eng p).isNone) = [] →
        (iterRun eng true filt st).2.fileContent = st.fileContent) := by
  have hw := iterAux_writes eng true filt st.mem st.mem
  refine ⟨iterAux_diags eng true filt st.mem st.mem, by simpa using hw,
    iterAux_yields eng true filt st.mem st.mem, ?_, ?_⟩
  · intro p hp
    show (match (iterAux eng true filt st.mem st.mem).writes.getLast? with
      | some w => joinLines w
      | none => st.fileContent) = joinLines (st.mem.erase p)
    rw [hw, if_pos rfl, hp]
    rfl
  · intro hnone
    show (match (iterAux eng true filt st.mem st.mem).writes.getLast? with
      | some w => joinLines w
      | none => st.fileContent) = st.fileContent
    rw [hw, if_pos rfl, hnone]
    rfl

/-- C4 witness: the spec's own scenario — a registry with one valid path `/v`
and one deleted path `/gone`, pruning enabled — produces one diagnostic,
persists a registry containing only `/v`, and yields exactly one record. -/
theorem iter_prune_amended_witness :
    (iterRun engOneBad true none oneBadState).1.diags = ["/gone"] ∧
      (iterRun engOneBad true none oneBadState).2.fileContent =
        joinLines (["/v", "/gone"].erase "/gone") ∧
      (iterRun engOneBad true none oneBadState).1.yields = ["/v"] :=
  ⟨(iter_prune_amended engOneBad none oneBadState).1.trans (by decide),
    (iter_prune_amended engOneBad none oneBadState).2.2.2.1 "/gone" (by decide),
    (iter_prune_amended engOneBad none oneBadState).2.2.1.trans (by decide)⟩

lemma insertSorted_of_le (x : String) (l : List String)
    (h : ∀ y ∈ l, strLe x y = true) : insertSorted x l = x :: l := by
  cases l with
  | nil => rfl
  | cons y ys => simp [insertSorted, h y (List.mem_cons_self y ys)]

lemma insertionSortStr_eq_self (l : List String)
    (h : l.Pairwise (fun a b => strLe a b = true)) :
    insertionSortStr l = l := by
  induction l with
  | nil => rfl
  | cons x xs ih =>
    rcases List.pairwise_cons.mp h with ⟨hx, hxs⟩
    simp only [insertionSortStr, ih hxs]
    exact insertSorted_of_le x xs hx

/-- C5 (evaluation at the failing input): `/h/ba` glob-matches the ignore
entry `/h/b*`, yet the walk attempts a repository open there and records the
directory — the subtree is pruned, but the glob-ignored directory itself is
opened, because the source's `continue` binds to the inner pattern loop. -/
theorem discover_glob_ignored_attempt :
    hasMagic "/h/b*" = true ∧ fnmatch "/h/ba" "/h/b*" = true ∧
      walkTree ["/h/b*"] engGlob "/h" globTree = ⟨["/h/ba"], ["/h/ba"]⟩ := by
  decide

/-- C6 (counterexample): `/r/a` looks like a repository root (it holds a
`config` file) and fails to open, yet the walk descends into it: the nested
repository `/r/a/b` is attempted and recorded, contradicting the claim that a
failed directory is not descended into. -/
theorem discover_failed_open_descends_cex :
    engNested "/r/a" = none ∧
      walkTree [] engNested "/r" nestedTree =
        ⟨["/r/a/b"], ["/r/a", "/r/a/b"]⟩ ∧
      "/r/a/b" ∈ (walkTree [] engNested "/r" nestedTree).attempts := by
  decide

/-- C6 (amended): at a non-ignored directory that looks like a repository
root (a `.git` subdirectory or a `config` file): if opening succeeds, the
engine path is recorded and the subtree is skipped; if opening fails, the
directory is not recorded, but — contrary to the original claim — the walk
descends into its children normally. -/
theorem discover_repo_root_amended (ig : List String)
    (eng : String → Option String) (p nm : String) (files : List String)
    (ch : DirForest) (hlit : p ∉ ig)
    (hglob : ig.any (fun e => hasMagic e && fnmatch p e) = false)
    (hlook : ((childNames ch).contains ".git"
      || files.contains "config") = true) :
    (∀ wd, eng p = some wd →
      walkTree ig eng p (.node nm files ch) = ⟨[wd], [p]⟩) ∧
      (eng p = none →
        walkTree ig eng p (.node nm files ch) =
          wAppend ⟨[], [p]⟩ (walkForest ig eng p ch)) := by
  have hlook' : ".git" ∈ childNames ch ∨ "config" ∈ files := by
    simpa using hlook
  constructor
  · intro wd hwd
    rcases hlook' with h | h <;> simp [walkTree, hlit, hglob, hwd, h]
  · intro hnone
    rcases hlook' with h | h <;> simp [walkTree, hlit, hglob, hnone, h]

/-- C6 witness: applying the amended statement to the failing-open directory
`/r/a` of the nested scenario. -/
theorem discover_repo_root_amended_witness :
    walkTree [] engNested "/r/a"
        (.node "a" ["config"]
          (.cons (.node "b" [] (.cons (.node ".git" [] .nil) .nil)) .nil)) =
      wAppend ⟨[], ["/r/a"]⟩
        (walkForest [] engNested "/r/a"
          (.cons (.node "b" [] (.cons (.node ".git" [] .nil) .nil)) .nil)) :=
  (discover_repo_root_amended [] engNested "/r/a" "a" ["config"]
    (.cons (.node "b" [] (.cons (.node ".git" [] .nil) .nil)) .nil)
    (by decide) rfl (by decide)).2 (by decide)

/-- C7 (counterexample): when the walk meets `/r/b` before `/r/a`, the
persisted registry file holds the raw walk order `"/r/b\n/r/a"` while the
in-memory registry is the sorted deduplicated list, so the file is neither
sorted nor equal to the in-memory content. -/
theorem discover_registry_file_cex :
    (discover [] engAll "/r" unsortedTree).1.fileContent =
        "/r/b" ++ "\n" ++ "/r/a" ∧
      (discover [] engAll "/r" unsortedTree).1.mem = ["/r/a", "/r/b"] ∧
      "/r/b" ++ "\n" ++ "/r/a" ≠ joinLines ["/r/a", "/r/b"] := by
  decide

/-- C7 (amended): after `discover()` the persisted registry file is the
successfully opened repository paths in walk order, newline-separated with no
trailing delimiter — not sorted, not deduplicated — while the in-memory
registry is set to the sorted deduplicated list; file and memory agree
whenever the walk already yields a sorted duplicate-free sequence. -/
theorem discover_registry_amended (ig : List String)
    (eng : String → Option String) (root : String) (t : DirTree) :
    (discover ig eng root t).1.fileContent =
        joinLines (walkTree ig eng root t).records ∧
      (discover ig eng root t).1.mem =
        sortDedup (walkTree ig eng root t).records ∧
      ((walkTree ig eng root t).records.Pairwise
          (fun a b => strLe a b = true) →
        (walkTree ig eng root t).records.Nodup →
        (discover ig eng root t).1.fileContent =
          joinLines ((discover ig eng root t).1.mem)) := by
  refine ⟨rfl, rfl, ?_⟩
  intro hsort hnodup
  show joinLines (walkTree ig eng root t).records =
    joinLines (sortDedup (walkTree ig eng root t).records)
  rw [sortDedup, List.dedup_eq_self.mpr hnodup,
    insertionSortStr_eq_self _ hsort]

/-- C7 witness: on a walk that happens to meet its repositories in sorted
order, the persisted file equals the in-memory registry content. -/
theorem discover_registry_amended_witness :
    (discover [] engAll "/r" sortedTree).1.fileContent =
      joinLines ((discover [] engAll "/r" sortedTree).1.mem) :=
  (discover_registry_amended [] engAll "/r" sortedTree).2.2
    (by decide) (by decide)

/-- C8: the walk of `discover()` is a total function of the scan tree (no
exception escapes it), and a non-ignored directory whose `config` file makes
it look like a bare repository and that the engine opens is recorded under the
path the engine reports — for a bare repository, its control directory. -/
theorem discover_bare_recorded (ig : List String)
    (eng : String → Option String) (p nm : String) (files : List String)
    (ch : DirForest) (q : String) (hlit : p ∉ ig)
    (hglob : ig.any (fun e => hasMagic e && fnmatch p e) = false)
    (hconf : files.contains "config" = true) (heng : eng p = some q) :
    walkTree ig eng p (.node nm files ch) = ⟨[q], [p]⟩ := by
  have hconf' : "config" ∈ files := by simpa using hconf
  simp [walkTree, hlit, hglob, heng, hconf']

/-- C8 witness: a bare repository detected through its `config` file is
recorded under its control-directory path `/scan/bare.git`. -/
theorem discover_bare_recorded_witness :
    walkTree [] engBare "/scan/bare.git"
        (.node "bare.git" ["config"] .nil) =
      ⟨["/scan/bare.git"], ["/scan/bare.git"]⟩ :=
  discover_bare_recorded [] engBare "/scan/bare.git" "bare.git" ["config"]
    .nil "/scan/bare.git" (by decide) rfl (by decide) (by decide)

lemma stripChars_cons_ne (c : Char) (l : List Char) (hc : c ≠ '<') :
    stripChars (c :: l) = c :: stripChars l := by
  simp [stripChars, stripAux, hc]

lemma stripChars_append_pure :
    ∀ (a b : List Char), (∀ c ∈ a, c ≠ '<') →
      stripChars (a ++ b) = a ++ stripChars b
  | [], b, _ => rfl
  | c :: as, b, h => by
    rw [List.cons_append,
      stripChars_cons_ne c (as ++ b) (h c (List.mem_cons_self c as)),
      stripChars_append_pure as b (fun x hx => h x (List.mem_cons_of_mem c hx))]
    rfl

lemma visible_len_assemble (P f M S : String)
    (hP : ∀ c ∈ P.data, c ≠ '<') (hf : ∀ c ∈ f.data, c ≠ '<') :
    (stripTags (assembleLine P f M S)).length =
      2 + P.length + f.length + (stripTags (M ++ " " ++ S)).length := by
  have hd : (assembleLine P f M S).data =
      (' ' :: P.data ++ ' ' :: f.data) ++ (M ++ " " ++ S).data := by
    simp [assembleLine, String.data_append]
  have hpure : ∀ c ∈ (' ' :: P.data ++ ' ' :: f.data), c ≠ '<' := by
    intro c hmem
    rcases List.mem_cons.mp hmem with h | h
    · subst h; decide
    rcases List.mem_append.mp h with h | h
    · exact hP c h
    rcases List.mem_cons.mp h with h | h
    · subst h; decide
    · exact hf c h
  show (stripChars (assembleLine P f M S).data).length = _
  rw [hd, stripChars_append_pure _ _ hpure]
  simp [stripTags]
  omega

lemma width_core (P M S : String) (w : Nat)
    (hP : ∀ c ∈ P.data, c ≠ '<')
    (hfit : (stripTags (assembleLine P "" M S)).length ≤ w) :
    (stripTags (assembleLine P
        (fillerOf w ((stripTags (assembleLine P "" M S)).length)) M S)).length
      = w := by
  set base := (stripTags (assembleLine P "" M S)).length with hbase
  have hbase' :
      base = 2 + P.length + 0 + (stripTags (M ++ " " ++ S)).length := by
    rw [hbase]
    exact visible_len_assemble P "" M S hP (by intro c hc; cases hc)
  have hfillpure : ∀ c ∈ (fillerOf w base).data, c ≠ '<' := by
    intro c hc
    have hsp : c = ' ' := List.eq_of_mem_replicate hc
    subst hsp; decide
  have hfilllen : (fillerOf w base).length = w - base := by
    show (List.replicate ((w : Int) - (base : Int)).toNat ' ').length = w - base
    rw [List.length_replicate, Int.toNat_sub]
  rw [visible_len_assemble P (fillerOf w base) M S hP hfillpure, hfilllen]
  omega

/-- C9 (counterexample): with `lineWidth = 80`, a 52-character working
directory exceeds `lineWidth - 30 = 50`, yet the status line keeps the full
path instead of an ellipsis plus its trailing 50 characters — the source
truncates only beyond `max_path_len + 3 = lineWidth - 27`. -/
theorem statusline_truncation_cex :
    (80 : Nat) - 30 < wd52.length ∧
      formPath 80 wd52 = wd52 ∧
      formPath 80 wd52 ≠ "..." ++ pyTail wd52 ((80 : Int) - 30) := by
  decide

/-- C9 (amended): the visible (tag-stripped) length of a rendered status line
equals the requested width whenever the unfilled line already fits within it
(the filler cannot be negative, so an overlong annotation cluster overflows
instead); a working-directory path is kept whole up to `lineWidth - 27`
characters and only beyond that is abbreviated to an ellipsis followed by its
trailing `lineWidth - 30` characters. -/
theorem statusline_width_amended (r : RepoFacts) (w : Nat)
    (hpure : ∀ c ∈ (statuslinePath r w).data, c ≠ '<')
    (hfit : baseVisibleLen r w ≤ w) :
    (stripTags (statuslineTagged r w)).length = w ∧
      (∀ wd : String, ((w : Int) - 30) + 3 < (wd.length : Int) →
        formPath w wd = "..." ++ pyTail wd ((w : Int) - 30)) ∧
      (∀ wd : String, (wd.length : Int) ≤ ((w : Int) - 30) + 3 →
        formPath w wd = wd) := by
  refine ⟨?_, ?_, ?_⟩
  · exact width_core (statuslinePath r w) (statuslineMore r)
      (statuslineStatus r) w hpure hfit
  · intro wd h
    rw [formPath, if_neg (not_le.mpr h)]
  · intro wd h
    rw [formPath, if_pos h]

/-- C9 witness: at width 80, both a short (7-character) and a long
(52-character, beyond the claim's `lineWidth - 30` threshold) working
directory render to a line of visible length exactly 80. -/
theorem statusline_width_amended_witness :
    (stripTags (statuslineTagged statusRepoShort 80)).length = 80 ∧
      (stripTags (statuslineTagged statusRepoLong 80)).length = 80 :=
  ⟨(statusline_width_amended statusRepoShort 80 (by decide) (by decide)).1,
    (statusline_width_amended statusRepoLong 80 (by decide) (by decide)).1⟩

end GitMeta
